import Mathlib

/-!
Verification of the serving-cell query tool (get-onyx-signal-info.py).

The Python source is shallowly embedded:
* Python strings are Lean `String`s; operations that Python performs on them
  (split on a character, strip a character, startswith, int parsing) are
  modelled character by character on `String.data`.
* Python dicts built by the decoder insert distinct keys in a fixed program
  order, so `ServingCellInfo` is an ordered association list.
* Uncaught Python exceptions (IndexError from an out-of-range sequence
  access, RuntimeError from `lookup_line`) are modelled as `Option.none`.
* The blocking queue read in `ATProtocol.command` is modelled by a list of
  events: `some line` is a line popped from the queue within the timeout,
  `none` is a pop on which the timeout fired.
-/

/-- The double-quote character stripped by the decoder. -/
def dquote : Char := Char.ofNat 34

/-- Python s.strip(c) for a one-character argument: removes every leading and
trailing occurrence of the character. -/
def pyStrip (c : Char) (s : String) : String :=
  String.mk (((s.data.dropWhile (fun a => a = c)).reverse.dropWhile (fun a => a = c)).reverse)

/-- Splitting a character list on a separator character, Python style:
splitting the empty string yields one empty piece, adjacent separators yield
empty pieces. -/
def splitChars (sep : Char) : List Char → List (List Char)
  | [] => [[]]
  | c :: rest =>
    match splitChars sep rest with
    | [] => if c = sep then [[], [c]] else [[c]]
    | g :: gs => if c = sep then [] :: g :: gs else (c :: g) :: gs

/-- Python s.split(sep) for a one-character separator. -/
def pySplit (s : String) (sep : Char) : List String :=
  (splitChars sep s.data).map String.mk

/-- Python s.startswith(p), character by character. -/
def startsWithChars : List Char → List Char → Bool
  | [], _ => true
  | _ :: _, [] => false
  | p :: ps, c :: cs => p = c && startsWithChars ps cs

/-- Python s.startswith(p). -/
def pyStartsWith (s p : String) : Bool :=
  startsWithChars p.data s.data

/-- Numeric value of an ASCII digit character. -/
def digitVal (c : Char) : Nat := c.toNat - 48

/-- Digits of a Python integer literal after the first digit: decimal digits
with single underscores allowed between digits. Returns the accumulated
value, or `none` on any other character or a misplaced underscore. -/
def parseDigitsAux : Nat → List Char → Option Nat
  | acc, [] => some acc
  | acc, c :: rest =>
    if c.isDigit then parseDigitsAux (10 * acc + digitVal c) rest
    else if c = '_' then
      match rest with
      | [] => none
      | d :: rest2 =>
        if d.isDigit then parseDigitsAux (10 * acc + digitVal d) rest2 else none
    else none

/-- A nonempty run of decimal digits (with underscore separators), as Python
int() accepts after the optional sign. -/
def parseDigits : List Char → Option Nat
  | [] => none
  | c :: rest => if c.isDigit then parseDigitsAux (digitVal c) rest else none

/-- Strip leading and trailing whitespace, as Python int() does. -/
def pyTrim (cs : List Char) : List Char :=
  ((cs.dropWhile Char.isWhitespace).reverse.dropWhile Char.isWhitespace).reverse

/-- The sign-and-digits part of Python int() on the trimmed characters. -/
def pyIntChars : List Char → Option Int
  | [] => none
  | c :: rest =>
    if c = '+' then (parseDigits rest).map (fun n => (n : Int))
    else if c = '-' then (parseDigits rest).map (fun n => -(n : Int))
    else (parseDigits (c :: rest)).map (fun n => (n : Int))

/-- Python int(s): optional surrounding whitespace, optional sign, nonempty
digit run; `none` models the ValueError raised on anything else. -/
def pyInt (s : String) : Option Int :=
  pyIntChars (pyTrim s.data)

/-- str2int from the source: the literal "-" maps to the fallback, otherwise
int(s); any parse failure also maps to the fallback. -/
def str2int (s : String) (nan : Int) : Int :=
  if s = "-" then nan
  else
    match pyInt s with
    | some n => n
    | none => nan

/-- A decoded field value: the decoder stores strings and integers. -/
inductive FieldValue
  | str (s : String)
  | int (n : Int)
deriving DecidableEq

/-- ServingCellInfo: the decoder's dict, as an ordered association list. -/
abbrev ServingCellInfo := List (String × FieldValue)

/-- How one positional token is converted: kept raw, quote-stripped, or
parsed with str2int under a given fallback. -/
inductive FieldKind
  | raw
  | quoted
  | intF (fallback : Int)
deriving DecidableEq

/-- Apply a conversion kind to a raw token. -/
def applyKind : FieldKind → String → FieldValue
  | .raw, tok => .str tok
  | .quoted, tok => .str (pyStrip dquote tok)
  | .intF f, tok => .int (str2int tok f)

/-- The GSM branch of query_serving_cell: one entry per source line, in
source order, with the conversion each line applies. -/
def gsmFields : List (String × FieldKind) :=
  [("mcc", .raw), ("mnc", .raw), ("lac", .raw), ("cellid", .raw),
   ("bsic", .intF 0), ("arfcn", .intF 0), ("band", .intF (-1)),
   ("rxlev", .intF (-1)), ("txp", .intF 0), ("rla", .intF 0),
   ("drx", .intF 0), ("c1", .intF 0), ("c2", .intF 0),
   ("gprs", .intF (-1)), ("tch", .intF 0), ("ts", .intF 0),
   ("ta", .intF 0), ("maio", .intF 0), ("hsn", .intF 0),
   ("rxlevsub", .intF (-1)), ("rxlevfull", .intF (-1)),
   ("rxqualsub", .intF (-1)), ("rxqualfull", .intF (-1)),
   ("voicecodec", .quoted)]

/-- The WCDMA branch of query_serving_cell, one entry per source line. -/
def wcdmaFields : List (String × FieldKind) :=
  [("mcc", .raw), ("mnc", .raw), ("lac", .raw), ("cellid", .raw),
   ("uarfcn", .intF 0), ("psc", .intF 0), ("rac", .intF (-1)),
   ("rscp", .intF 0), ("ecio", .intF 0), ("phych", .intF (-1)),
   ("sf", .intF 8), ("slot", .intF (-1)), ("speech_code", .raw),
   ("commod", .intF (-1))]

/-- The LTE branch of query_serving_cell, one entry per source line. -/
def lteFields : List (String × FieldKind) :=
  [("duplex", .quoted), ("mcc", .raw), ("mnc", .raw), ("cellid", .raw),
   ("pcid", .intF 0), ("earfcn", .intF 0), ("band", .intF 0),
   ("ul_bandwidth", .intF 0), ("dl_bandwidth", .intF 0), ("tac", .raw),
   ("rsrp", .intF 0), ("rsrq", .intF 0), ("rssi", .intF 0),
   ("sinr", .intF 0), ("rxlev", .intF 0)]

/-- Dispatch on the stripped rat token, mirroring the if/elif chain; an
unrecognised rat consumes no further field. -/
def ratFields (rat : String) : List (String × FieldKind) :=
  if rat = "GSM" then gsmFields
  else if rat = "WCDMA" then wcdmaFields
  else if rat = "LTE" then lteFields
  else []

/-- Consume one branch row positionally: the cursor i advances once per
field, mirroring the (i:=i+1) accumulation; an out-of-range access (the
IndexError) is `none`. -/
def readFields : List (String × FieldKind) → List String → Nat → Option ServingCellInfo
  | [], _, _ => some []
  | (name, k) :: row, toks, i =>
    match toks.get? i with
    | none => none
    | some tok =>
      match readFields row toks (i + 1) with
      | none => none
      | some rest => some ((name, applyKind k tok) :: rest)

/-- Decode the comma-split serving-cell report: resp[1] is state (stripped),
resp[2] is rat (stripped), then the rat branch's fields from index 3. -/
def decodeServingCell (toks : List String) : Option ServingCellInfo :=
  match toks.get? 1, toks.get? 2 with
  | some st, some rt =>
    match readFields (ratFields (pyStrip dquote rt)) toks 3 with
    | none => none
    | some fields =>
      some (("state", .str (pyStrip dquote st)) :: ("rat", .str (pyStrip dquote rt)) :: fields)
  | _, _ => none

/-- lookup_line from the source: first line starting with the given string;
`none` models the RuntimeError raised when no line matches. -/
def lookup_line (lines : List String) (pre : String) : Option String :=
  lines.find? (fun l => pyStartsWith l pre)

/-- query_serving_cell on the collected response lines: locate the +QENG:
line, comma-split it, decode it. -/
def query_serving_cell (lines : List String) : Option ServingCellInfo :=
  match lookup_line lines "+QENG:" with
  | none => none
  | some l => decodeServingCell (pySplit l ',')

/-- The terminator test in ATProtocol.command: the expected response,
"ERROR", or "NO CARRIER". -/
def isTerminatorLine (response line : String) : Bool :=
  line = response || line = "ERROR" || line = "NO CARRIER"

/-- Outcome of one command call: the collected lines, or the RuntimeError
carrying the command text after a queue-read timeout. -/
inductive CmdOutcome
  | ok (lines : List String)
  | timeout (command : String)
deriving DecidableEq

/-- The collection loop of ATProtocol.command over the queue events: a
terminator line returns the lines collected so far, any other line is
appended, a timed-out pop raises. `none` means the event list ended with the
loop still blocked (no verdict in the model). -/
def commandLoop (command response : String) (lines : List String) :
    List (Option String) → Option CmdOutcome
  | [] => none
  | none :: _ => some (.timeout command)
  | some line :: rest =>
    if isTerminatorLine response line then some (.ok lines)
    else commandLoop command response (lines ++ [line]) rest

/-- ATProtocol.command: write, then collect starting from an empty list. -/
def commandRun (command response : String) (events : List (Option String)) : Option CmdOutcome :=
  commandLoop command response [] events

/-- The stdout condition of main: json or neither metadata nor udp. -/
def shouldPrintJson (jsonFlag metadataFlag udpFlag : Bool) : Bool :=
  jsonFlag || !(metadataFlag || udpFlag)

/-- The condition the spec sentence describes: emitted unless both other
sinks are requested without the json flag. Stated for comparison with
`shouldPrintJson`. -/
def specPrintJson (jsonFlag metadataFlag udpFlag : Bool) : Bool :=
  !(metadataFlag && udpFlag && !jsonFlag)

/-- The include filter of main: split the option on commas; if "any" is a
member take the whole mapping, else keep the pairs whose key is listed. -/
def filterResult (inc : String) (full : ServingCellInfo) : ServingCellInfo :=
  let item_names := pySplit inc ','
  if "any" ∈ item_names then full
  else full.filter (fun kv => decide (kv.1 ∈ item_names))

/-- Value of a list of decimal digit characters read left to right. -/
def decValue (ds : List Char) : Nat :=
  ds.foldl (fun a c => 10 * a + digitVal c) 0

/-- The GSM row as the spec's table in section 4.3 lists it, field names and
conversions taken from the table text (default int fallback 0; mcc, mnc,
lac, cellid raw strings). -/
def specGsmRow : List (String × FieldKind) :=
  [("mcc", .raw), ("mnc", .raw), ("lac", .raw), ("cellid", .raw),
   ("bsic", .intF 0), ("arfcn", .intF 0), ("band", .intF (-1)),
   ("rxlev", .intF (-1)), ("txp", .intF 0), ("rla", .intF 0),
   ("drx", .intF 0), ("c1", .intF 0), ("c2", .intF 0),
   ("gprs", .intF (-1)), ("tch", .intF 0), ("ts", .intF 0),
   ("ta", .intF 0), ("maio", .intF 0), ("hsn", .intF 0),
   ("rxlevsub", .intF (-1)), ("rxlevfull", .intF (-1)),
   ("rxqualsub", .intF (-1)), ("rxqualfull", .intF (-1)),
   ("voicecodec", .quoted)]

/-- The WCDMA row of the spec's section 4.3 table (speech_code is a plain
string in the table, not quoted; mcc, mnc, lac, cellid raw). -/
def specWcdmaRow : List (String × FieldKind) :=
  [("mcc", .raw), ("mnc", .raw), ("lac", .raw), ("cellid", .raw),
   ("uarfcn", .intF 0), ("psc", .intF 0), ("rac", .intF (-1)),
   ("rscp", .intF 0), ("ecio", .intF 0), ("phych", .intF (-1)),
   ("sf", .intF 8), ("slot", .intF (-1)), ("speech_code", .raw),
   ("commod", .intF (-1))]

/-- The LTE row of the spec's section 4.3 table (duplex quoted; mcc, mnc,
cellid, tac raw). -/
def specLteRow : List (String × FieldKind) :=
  [("duplex", .quoted), ("mcc", .raw), ("mnc", .raw), ("cellid", .raw),
   ("pcid", .intF 0), ("earfcn", .intF 0), ("band", .intF 0),
   ("ul_bandwidth", .intF 0), ("dl_bandwidth", .intF 0), ("tac", .raw),
   ("rsrp", .intF 0), ("rsrq", .intF 0), ("rssi", .intF 0),
   ("sinr", .intF 0), ("rxlev", .intF 0)]

/-- The spec table keyed by RAT name. -/
def specRatRow (rat : String) : List (String × FieldKind) :=
  if rat = "GSM" then specGsmRow
  else if rat = "WCDMA" then specWcdmaRow
  else if rat = "LTE" then specLteRow
  else []

/-!
Model of the command lock (claim C9). Each of two issuing threads runs
ATProtocol.command repeatedly: acquire the lock, write the command, pop
response lines, observe the terminator or the timeout, release the lock.
The `with self.lock` block spans the write and the whole collection, so the
lock is held from the write to the terminator or timeout. The trace records
the externally visible events: the command write, each queue pop, and the
terminating observation (terminator line or timeout) that ends the
collection and releases the lock.
-/

/-- One observable action of an issuing thread. -/
inductive Act
  | write
  | recv
  | term
deriving DecidableEq

/-- A trace event: which thread did which action. -/
abbrev Ev := Bool × Act

/-- Control point of one issuing thread inside command(): not in a call,
holding the lock before the write, or collecting response lines. -/
inductive ThreadPC
  | idle
  | locked
  | collecting
deriving DecidableEq

/-- Global state: the lock holder, each thread's control point, and the
event trace so far. -/
structure ProtoState where
  lock : Option Bool
  pc : Bool → ThreadPC
  trace : List Ev

/-- Initial state: lock free, both threads outside command(), empty trace. -/
def initState : ProtoState :=
  ⟨none, fun _ => .idle, []⟩

/-- Interleaving semantics of two threads running command(): a thread can
acquire the free lock, write while holding it, pop lines while holding it,
and finish (terminator observed or timeout raised) which releases it. -/
inductive Step : ProtoState → ProtoState → Prop
  | acquire (s : ProtoState) (t : Bool) :
      s.lock = none → s.pc t = .idle →
      Step s ⟨some t, Function.update s.pc t .locked, s.trace⟩
  | write (s : ProtoState) (t : Bool) :
      s.lock = some t → s.pc t = .locked →
      Step s ⟨some t, Function.update s.pc t .collecting, s.trace ++ [(t, .write)]⟩
  | recv (s : ProtoState) (t : Bool) :
      s.lock = some t → s.pc t = .collecting →
      Step s ⟨some t, s.pc, s.trace ++ [(t, .recv)]⟩
  | finish (s : ProtoState) (t : Bool) :
      s.lock = some t → s.pc t = .collecting →
      Step s ⟨none, Function.update s.pc t .idle, s.trace ++ [(t, .term)]⟩

/-- States reachable from the initial state. -/
inductive Reachable : ProtoState → Prop
  | init : Reachable initState
  | step (s s' : ProtoState) : Reachable s → Step s s' → Reachable s'

/-- Serialized traces: a concatenation of whole command blocks, each a
write, then some pops, then the terminating observation, all by one
thread. -/
inductive SerTrace : List Ev → Prop
  | nil : SerTrace []
  | block (tr : List Ev) (t : Bool) (n : Nat) : SerTrace tr →
      SerTrace (tr ++ (t, .write) :: (List.replicate n (t, .recv) ++ [(t, .term)]))

/-- Inductive invariant tying the lock and control points to the shape of
the trace. -/
def CmdInv (s : ProtoState) : Prop :=
  (s.lock = none → SerTrace s.trace ∧ ∀ t, s.pc t = .idle) ∧
  (∀ t, s.lock = some t →
    s.pc (!t) = .idle ∧
    ((s.pc t = .locked ∧ SerTrace s.trace) ∨
     (s.pc t = .collecting ∧
       ∃ tr n, SerTrace tr ∧
         s.trace = tr ++ (t, .write) :: List.replicate n (t, .recv))))

/-! Helper lemmas. -/

/-- With enough tokens, a branch row is consumed positionally: the result
pairs each row entry with the token at its cursor position. -/
theorem readFields_eq_of_le (row : List (String × FieldKind)) :
    ∀ (toks : List String) (i : Nat), i + row.length ≤ toks.length →
      readFields row toks i =
        some ((row.zip (toks.drop i)).map (fun p => (p.1.1, applyKind p.1.2 p.2))) := by
  induction row with
  | nil => intro toks i _; simp [readFields]
  | cons nk row ih =>
    intro toks i h
    obtain ⟨name, k⟩ := nk
    have hi : i < toks.length := by
      simp only [List.length_cons] at h; omega
    have hrest : i + 1 + row.length ≤ toks.length := by
      simp only [List.length_cons] at h; omega
    rw [readFields, List.get?_eq_get hi, ih toks (i + 1) hrest,
      List.drop_eq_getElem_cons hi, List.zip_cons_cons, List.map_cons]
    rfl

/-- With too few tokens, consuming a nonempty row runs off the end. -/
theorem readFields_eq_none_of_short (row : List (String × FieldKind)) :
    ∀ (toks : List String) (i : Nat), row ≠ [] → toks.length < i + row.length →
      readFields row toks i = none := by
  induction row with
  | nil => intro toks i h _; exact absurd rfl h
  | cons nk row ih =>
    intro toks i _ hlen
    obtain ⟨name, k⟩ := nk
    by_cases hi : toks.length ≤ i
    · rw [readFields, List.get?_eq_none.mpr hi]
    · push_neg at hi
      rw [readFields, List.get?_eq_get hi]
      rcases row with _ | ⟨nk2, row⟩
      · simp only [List.length_cons, List.length_nil] at hlen; omega
      · rw [ih toks (i + 1) (by simp) (by simp only [List.length_cons] at hlen ⊢; omega)]

/-- The rows the decoder consumes agree with the rows of the spec table. -/
theorem ratFields_eq_specRatRow (r : String) : ratFields r = specRatRow r := by
  unfold ratFields specRatRow
  by_cases h1 : r = "GSM"
  · rw [if_pos h1, if_pos h1]; decide
  · rw [if_neg h1, if_neg h1]
    by_cases h2 : r = "WCDMA"
    · rw [if_pos h2, if_pos h2]; decide
    · rw [if_neg h2, if_neg h2]
      by_cases h3 : r = "LTE"
      · rw [if_pos h3, if_pos h3]; decide
      · rw [if_neg h3, if_neg h3]

/-- An ASCII digit is not whitespace. -/
theorem isDigit_not_whitespace (c : Char) (h : c.isDigit = true) :
    c.isWhitespace = false := by
  cases hw : c.isWhitespace with
  | false => rfl
  | true =>
    exfalso
    simp only [Char.isWhitespace, Bool.or_eq_true, decide_eq_true_eq] at hw
    have hc : c = ' ' ∨ c = '\t' ∨ c = '\x0d' ∨ c = '\x0a' := by tauto
    rcases hc with h1 | h1 | h1 | h1 <;> subst h1 <;> exact absurd h (by decide)

/-- A nonempty all-digit character list is unchanged by whitespace
trimming. -/
theorem pyTrim_of_digits (ds : List Char) (hne : ds ≠ [])
    (hd : ∀ c ∈ ds, c.isDigit = true) : pyTrim ds = ds := by
  have key : ∀ (l : List Char), (∀ c ∈ l, c.isDigit = true) →
      l.dropWhile Char.isWhitespace = l := by
    intro l hdig
    cases l with
    | nil => rfl
    | cons c rest =>
      rw [List.dropWhile_cons, isDigit_not_whitespace c (hdig c (by simp))]
      simp
  unfold pyTrim
  rw [key ds hd, key ds.reverse (by intro c hc; exact hd c (List.mem_reverse.mp hc)),
    List.reverse_reverse]

/-- On an all-digit tail the digit accumulator folds the digits in. -/
theorem parseDigitsAux_digits (ds : List Char) :
    ∀ (acc : Nat), (∀ c ∈ ds, c.isDigit = true) →
      parseDigitsAux acc ds = some (ds.foldl (fun a c => 10 * a + digitVal c) acc) := by
  induction ds with
  | nil => intro acc _; rfl
  | cons c rest ih =>
    intro acc hd
    have hstep : parseDigitsAux acc (c :: rest) =
        parseDigitsAux (10 * acc + digitVal c) rest := by
      rw [parseDigitsAux.eq_def]
      simp only [if_pos (hd c (by simp))]
    rw [hstep, ih (10 * acc + digitVal c) (fun x hx => hd x (by simp [hx]))]
    simp

/-- Python int() on a nonempty all-digit string parses its decimal value. -/
theorem pyInt_of_digits (ds : List Char) (hne : ds ≠ [])
    (hd : ∀ c ∈ ds, c.isDigit = true) :
    pyInt (String.mk ds) = some ((decValue ds : Nat) : Int) := by
  unfold pyInt
  have hdata : (String.mk ds).data = ds := rfl
  rw [hdata, pyTrim_of_digits ds hne hd]
  cases ds with
  | nil => exact absurd rfl hne
  | cons c rest =>
    have hc : c.isDigit = true := hd c (by simp)
    have hcp : c ≠ '+' := by intro h; subst h; exact absurd hc (by decide)
    have hcm : c ≠ '-' := by intro h; subst h; exact absurd hc (by decide)
    rw [pyIntChars, if_neg hcp, if_neg hcm]
    rw [parseDigits, if_pos hc, parseDigitsAux_digits rest (digitVal c)
      (fun x hx => hd x (by simp [hx]))]
    simp [decValue]

/-- When a terminator is among the queued lines, the loop returns what was
accumulated plus the lines before the first terminator. -/
theorem commandLoop_of_terminator (command response : String) :
    ∀ (qs : List String) (acc : List String),
      (∃ q ∈ qs, isTerminatorLine response q = true) →
      commandLoop command response acc (qs.map some) =
        some (.ok (acc ++ qs.takeWhile (fun q => !isTerminatorLine response q))) := by
  intro qs
  induction qs with
  | nil => intro acc h; simp at h
  | cons q qs ih =>
    intro acc h
    by_cases hq : isTerminatorLine response q = true
    · simp [commandLoop, hq, List.takeWhile_cons]
    · have h' : ∃ x ∈ qs, isTerminatorLine response x = true := by
        rcases h with ⟨x, hx, hxt⟩
        rcases List.mem_cons.mp hx with rfl | hx'
        · exact absurd hxt hq
        · exact ⟨x, hx', hxt⟩
      rw [List.map_cons, commandLoop, if_neg hq, ih (acc ++ [q]) h']
      simp [List.takeWhile_cons, hq]

/-- When no queued line is a terminator and then a pop times out, the loop
raises the timeout carrying the command text. -/
theorem commandLoop_timeout (command response : String) :
    ∀ (qs : List String) (acc : List String) (rest : List (Option String)),
      (∀ q ∈ qs, isTerminatorLine response q = false) →
      commandLoop command response acc (qs.map some ++ none :: rest) =
        some (.timeout command) := by
  intro qs
  induction qs with
  | nil => intro acc rest _; rfl
  | cons q qs ih =>
    intro acc rest h
    have hq : isTerminatorLine response q = false := h q (by simp)
    rw [List.map_cons, List.cons_append, commandLoop, if_neg (by simp [hq])]
    exact ih (acc ++ [q]) rest (fun x hx => h x (by simp [hx]))

/-- The initial state satisfies the command-lock invariant. -/
theorem cmdInv_init : CmdInv initState := by
  constructor
  · intro _; exact ⟨SerTrace.nil, fun _ => rfl⟩
  · intro t h; simp [initState] at h

/-- The command-lock invariant is preserved by every step. -/
theorem cmdInv_step (s s' : ProtoState) (hinv : CmdInv s) (hstep : Step s s') :
    CmdInv s' := by
  obtain ⟨hfree, hheld⟩ := hinv
  cases hstep with
  | acquire t hl hpc =>
    obtain ⟨hser, hall⟩ := hfree hl
    constructor
    · intro h; exact absurd h (by simp)
    · intro u hu
      obtain rfl : t = u := by simpa using hu
      refine ⟨?_, Or.inl ⟨?_, hser⟩⟩
      · show Function.update s.pc t ThreadPC.locked (!t) = ThreadPC.idle
        rw [Function.update_noteq (Bool.not_ne_self t)]
        exact hall (!t)
      · show Function.update s.pc t ThreadPC.locked t = ThreadPC.locked
        rw [Function.update_same]
  | write t hl hpc =>
    obtain ⟨hidle, hcase⟩ := hheld t hl
    have hser : SerTrace s.trace := by
      rcases hcase with ⟨_, hser⟩ | ⟨hcol, _⟩
      · exact hser
      · rw [hpc] at hcol; exact absurd hcol (by simp)
    constructor
    · intro h; exact absurd h (by simp)
    · intro u hu
      obtain rfl : t = u := by simpa using hu
      refine ⟨?_, Or.inr ⟨?_, s.trace, 0, hser, by simp⟩⟩
      · show Function.update s.pc t ThreadPC.collecting (!t) = ThreadPC.idle
        rw [Function.update_noteq (Bool.not_ne_self t)]
        exact hidle
      · show Function.update s.pc t ThreadPC.collecting t = ThreadPC.collecting
        rw [Function.update_same]
  | recv t hl hpc =>
    obtain ⟨hidle, hcase⟩ := hheld t hl
    obtain ⟨tr, n, hser, htr⟩ : ∃ tr n, SerTrace tr ∧
        s.trace = tr ++ (t, .write) :: List.replicate n (t, .recv) := by
      rcases hcase with ⟨hlk, _⟩ | ⟨_, h⟩
      · rw [hpc] at hlk; exact absurd hlk (by simp)
      · exact h
    constructor
    · intro h; exact absurd h (by simp)
    · intro u hu
      obtain rfl : t = u := by simpa using hu
      refine ⟨hidle, Or.inr ⟨hpc, tr, n + 1, hser, ?_⟩⟩
      show s.trace ++ [(t, Act.recv)] = _
      rw [htr, List.replicate_succ']
      simp
  | finish t hl hpc =>
    obtain ⟨hidle, hcase⟩ := hheld t hl
    obtain ⟨tr, n, hser, htr⟩ : ∃ tr n, SerTrace tr ∧
        s.trace = tr ++ (t, .write) :: List.replicate n (t, .recv) := by
      rcases hcase with ⟨hlk, _⟩ | ⟨_, h⟩
      · rw [hpc] at hlk; exact absurd hlk (by simp)
      · exact h
    constructor
    · intro _
      constructor
      · show SerTrace (s.trace ++ [(t, Act.term)])
        rw [htr]
        have := SerTrace.block tr t n hser
        simpa [List.append_assoc] using this
      · intro u
        show Function.update s.pc t ThreadPC.idle u = ThreadPC.idle
        by_cases hu : u = t
        · subst hu; rw [Function.update_same]
        · rw [Function.update_noteq hu]
          have hut : u = !t := by
            cases u <;> cases t <;> simp_all
          rw [hut]; exact hidle
    · intro u hu; exact absurd hu (by simp)

/-- Every reachable state satisfies the command-lock invariant. -/
theorem cmdInv_reachable (s : ProtoState) (h : Reachable s) : CmdInv s := by
  induction h with
  | init => exact cmdInv_init
  | step s s' _ hstep ih => exact cmdInv_step s s' ih hstep

/-! Claim theorems. -/

/-- Claim C1, counterexample: the claim says stdout JSON is printed unless
both the metadata sink and the UDP sink are requested without the JSON flag,
so with only the metadata flag set it would still print; the code's
condition (json or neither other sink) does not print there. -/
theorem stdout_condition_counterexample :
    shouldPrintJson false true false = false ∧ specPrintJson false true false = true := by
  decide

/-- Claim C1 as amended: the filtered mapping is printed to stdout exactly
when the JSON flag is set or neither the metadata flag nor the UDP flag is
set; requesting either other sink without the JSON flag suppresses it. -/
theorem stdout_condition_amended :
    ∀ jsonFlag metadataFlag udpFlag : Bool,
      shouldPrintJson jsonFlag metadataFlag udpFlag = true ↔
        (jsonFlag = true ∨ (metadataFlag = false ∧ udpFlag = false)) := by
  decide

/-- Claim C2: for each RAT among GSM, WCDMA, LTE, decoding a report line
with enough comma-separated fields yields exactly state and rat followed by
the fields of that RAT's row in the section 4.3 table, consumed strictly
positionally from token 3 in the listed order, each converted as the table
says: int fields by str2int with the listed fallback, quoted fields
quote-stripped, mcc/mnc/lac/tac/cellid raw. -/
theorem decode_known_rat_fields (toks : List String) (st rt : String)
    (h1 : toks.get? 1 = some st) (h2 : toks.get? 2 = some rt)
    (hr : pyStrip dquote rt ∈ (["GSM", "WCDMA", "LTE"] : List String))
    (hl : 3 + (specRatRow (pyStrip dquote rt)).length ≤ toks.length) :
    decodeServingCell toks =
      some (("state", .str (pyStrip dquote st)) :: ("rat", .str (pyStrip dquote rt)) ::
        ((specRatRow (pyStrip dquote rt)).zip (toks.drop 3)).map
          (fun p => (p.1.1, applyKind p.1.2 p.2))) := by
  have hrow := ratFields_eq_specRatRow (pyStrip dquote rt)
  simp only [decodeServingCell, h1, h2]
  rw [hrow, readFields_eq_of_le (specRatRow (pyStrip dquote rt)) toks 3 hl]

/-- Claim C2 witness at a well-formed LTE report line. -/
theorem decode_known_rat_fields_witness :
    pyStrip dquote "\"LTE\"" ∈ (["GSM", "WCDMA", "LTE"] : List String) ∧
    decodeServingCell ["+QENG: \"servingcell\"", "\"NOCONN\"", "\"LTE\"", "\"FDD\"", "440",
        "10", "2A16033", "235", "1575", "3", "5", "5", "1F12", "-95", "-9", "-63", "10", "40"] =
      some [("state", .str "NOCONN"), ("rat", .str "LTE"), ("duplex", .str "FDD"),
        ("mcc", .str "440"), ("mnc", .str "10"), ("cellid", .str "2A16033"),
        ("pcid", .int 235), ("earfcn", .int 1575), ("band", .int 3),
        ("ul_bandwidth", .int 5), ("dl_bandwidth", .int 5), ("tac", .str "1F12"),
        ("rsrp", .int (-95)), ("rsrq", .int (-9)), ("rssi", .int (-63)),
        ("sinr", .int 10), ("rxlev", .int 40)] :=
  ⟨by decide, by
    have h := decode_known_rat_fields
      ["+QENG: \"servingcell\"", "\"NOCONN\"", "\"LTE\"", "\"FDD\"", "440",
        "10", "2A16033", "235", "1575", "3", "5", "5", "1F12", "-95", "-9", "-63", "10", "40"]
      "\"NOCONN\"" "\"LTE\"" rfl rfl (by decide) (by decide)
    exact h.trans (by decide)⟩

/-- Claim C3: str2int maps the literal "-" to the fallback, maps anything
that does not parse as an integer (such as "abc") to the fallback, and maps
a decimal integer literal to its parsed value independently of the
fallback. -/
theorem str2int_spec :
    (∀ n : Int, str2int "-" n = n) ∧
    (∀ n : Int, str2int "abc" n = n) ∧
    (∀ (ds : List Char) (n : Int), ds ≠ [] → (∀ c ∈ ds, c.isDigit = true) →
      str2int (String.mk ds) n = ((decValue ds : Nat) : Int)) := by
  refine ⟨fun n => ?_, fun n => ?_, fun ds n hne hd => ?_⟩
  · simp [str2int]
  · have habc : ("abc" : String) ≠ "-" := by decide
    have hpy : pyInt "abc" = none := by decide
    rw [str2int, if_neg habc, hpy]
  · have hmk : String.mk ds ≠ "-" := by
      intro h
      have hds : ds = ['-'] := by
        have h2 := congrArg String.data h
        simpa using h2
      rw [hds] at hd
      exact absurd (hd '-' (by simp)) (by decide)
    rw [str2int, if_neg hmk, pyInt_of_digits ds hne hd]

/-- Claim C3 witness at "-", "abc" and "42" with fallback 7. -/
theorem str2int_spec_witness :
    str2int "-" 7 = 7 ∧ str2int "abc" 7 = 7 ∧ str2int "42" 7 = 42 :=
  ⟨str2int_spec.1 7, str2int_spec.2.1 7, by
    have h := str2int_spec.2.2 ['4', '2'] 7 (by decide) (by decide)
    exact h.trans (by decide)⟩

/-- Claim C4: when some queued line is a terminator (the expected response,
ERROR, or NO CARRIER), command() returns exactly the lines queued before the
first terminator, the terminator itself excluded. -/
theorem command_returns_lines_before_terminator (command response : String)
    (qs : List String) (h : ∃ q ∈ qs, isTerminatorLine response q = true) :
    commandRun command response (qs.map some) =
      some (.ok (qs.takeWhile (fun q => !isTerminatorLine response q))) := by
  unfold commandRun
  simpa using commandLoop_of_terminator command response qs [] h

/-- Claim C4 witness at the spec's example response. -/
theorem command_returns_lines_before_terminator_witness :
    (∃ q ∈ (["+QENG: serving,LTE", "OK"] : List String), isTerminatorLine "OK" q = true) ∧
    commandRun "AT+QENG" "OK" ((["+QENG: serving,LTE", "OK"] : List String).map some) =
      some (.ok ["+QENG: serving,LTE"]) :=
  ⟨by decide, by
    have h := command_returns_lines_before_terminator "AT+QENG" "OK"
      ["+QENG: serving,LTE", "OK"] (by decide)
    exact h.trans (by decide)⟩

/-- Claim C5: if no terminator has arrived and a queue pop times out, the
call raises the AT-command-timeout failure carrying the command text, and
none of the partially collected lines is returned (the outcome holds only
the command text). -/
theorem command_timeout_raises (command response : String) (qs : List String)
    (rest : List (Option String)) (h : ∀ q ∈ qs, isTerminatorLine response q = false) :
    commandRun command response (qs.map some ++ none :: rest) =
      some (.timeout command) := by
  unfold commandRun
  exact commandLoop_timeout command response qs [] rest h

/-- Claim C5 witness: one non-terminator line, then a timed-out pop. -/
theorem command_timeout_raises_witness :
    (∀ q ∈ (["+CSQ: 20,99"] : List String), isTerminatorLine "OK" q = false) ∧
    commandRun "AT+CSQ" "OK" ((["+CSQ: 20,99"] : List String).map some ++ none :: []) =
      some (.timeout "AT+CSQ") :=
  ⟨by decide, command_timeout_raises "AT+CSQ" "OK" ["+CSQ: 20,99"] [] (by decide)⟩

/-- Claim C6: a report line whose comma-split has fewer tokens than its RAT
branch consumes makes the decoder run off the end of the token sequence (the
unchecked IndexError, `none` in this model) instead of returning a mapping;
no field-count validation exists. -/
theorem decode_short_line_faults (toks : List String) (st rt : String)
    (h1 : toks.get? 1 = some st) (h2 : toks.get? 2 = some rt)
    (hr : pyStrip dquote rt ∈ (["GSM", "WCDMA", "LTE"] : List String))
    (hl : toks.length < 3 + (ratFields (pyStrip dquote rt)).length) :
    decodeServingCell toks = none := by
  have hne : ratFields (pyStrip dquote rt) ≠ [] := by
    simp only [List.mem_cons, List.not_mem_nil, or_false] at hr
    rcases hr with h | h | h <;> rw [h] <;> decide
  simp only [decodeServingCell, h1, h2]
  rw [readFields_eq_none_of_short (ratFields (pyStrip dquote rt)) toks 3 hne hl]

/-- Claim C6 witness: a GSM line with only two fields after the rat. -/
theorem decode_short_line_faults_witness :
    pyStrip dquote "\"GSM\"" ∈ (["GSM", "WCDMA", "LTE"] : List String) ∧
    (["+QENG: \"servingcell\"", "\"NOCONN\"", "\"GSM\"", "440", "10"] : List String).length <
      3 + (ratFields (pyStrip dquote "\"GSM\"")).length ∧
    decodeServingCell ["+QENG: \"servingcell\"", "\"NOCONN\"", "\"GSM\"", "440", "10"] = none :=
  ⟨by decide, by decide,
    decode_short_line_faults ["+QENG: \"servingcell\"", "\"NOCONN\"", "\"GSM\"", "440", "10"]
      "\"NOCONN\"" "\"GSM\"" rfl rfl (by decide) (by decide)⟩

/-- Claim C7: a report line with at least three tokens whose stripped rat
token is none of GSM, WCDMA, LTE decodes without failing to a mapping with
exactly the keys state and rat. -/
theorem decode_unknown_rat (toks : List String) (st rt : String)
    (h1 : toks.get? 1 = some st) (h2 : toks.get? 2 = some rt)
    (hr : pyStrip dquote rt ∉ (["GSM", "WCDMA", "LTE"] : List String)) :
    decodeServingCell toks =
      some [("state", .str (pyStrip dquote st)), ("rat", .str (pyStrip dquote rt))] := by
  simp only [List.mem_cons, List.not_mem_nil, or_false, not_or] at hr
  have hrow : ratFields (pyStrip dquote rt) = [] := by
    unfold ratFields
    rw [if_neg hr.1, if_neg hr.2.1, if_neg hr.2.2]
  simp only [decodeServingCell, h1, h2]
  rw [hrow]
  rfl

/-- Claim C7 witness: an NR5G report line. -/
theorem decode_unknown_rat_witness :
    pyStrip dquote "\"NR5G\"" ∉ (["GSM", "WCDMA", "LTE"] : List String) ∧
    decodeServingCell ["+QENG: \"servingcell\"", "\"SEARCH\"", "\"NR5G\""] =
      some [("state", .str "SEARCH"), ("rat", .str "NR5G")] :=
  ⟨by decide, by
    have h := decode_unknown_rat ["+QENG: \"servingcell\"", "\"SEARCH\"", "\"NR5G\""]
      "\"SEARCH\"" "\"NR5G\"" rfl rfl (by decide)
    exact h.trans (by decide)⟩

/-- Claim C8: lookup_line fails (the RuntimeError, `none` here) exactly when
no collected line starts with the prefix string, and when it succeeds it
returns a collected line that does start with it. -/
theorem lookup_line_prefix_iff (lines : List String) (pre : String) :
    (lookup_line lines pre = none ↔ ∀ l ∈ lines, pyStartsWith l pre = false) ∧
    (∀ l, lookup_line lines pre = some l → l ∈ lines ∧ pyStartsWith l pre = true) := by
  constructor
  · unfold lookup_line
    rw [List.find?_eq_none]
    simp
  · intro l hfind
    rw [lookup_line] at hfind
    refine ⟨List.mem_of_find?_eq_some hfind, ?_⟩
    have hp := List.find?_some hfind
    simpa using hp

/-- Claim C8 witness: the +QENG line is selected from a two-line response. -/
theorem lookup_line_prefix_iff_witness :
    "+QENG: a,b" ∈ (["AT+QENG", "+QENG: a,b"] : List String) ∧
    pyStartsWith "+QENG: a,b" "+QENG:" = true :=
  (lookup_line_prefix_iff ["AT+QENG", "+QENG: a,b"] "+QENG:").2 "+QENG: a,b" (by decide)

/-- Claim C9: with the command lock held from the write to the terminator or
timeout, every reachable trace of two threads issuing commands is a sequence
of whole per-command blocks (write, pops, terminating observation, all by
one thread), possibly followed by one still-open block; so a second
command's write occurs only after the first command's terminator or timeout,
and response collections never interleave. -/
theorem command_serialized (s : ProtoState) (h : Reachable s) :
    SerTrace s.trace ∨
      ∃ tr t n, SerTrace tr ∧
        s.trace = tr ++ (t, Act.write) :: List.replicate n (t, Act.recv) := by
  obtain ⟨hfree, hheld⟩ := cmdInv_reachable s h
  cases hl : s.lock with
  | none => exact Or.inl (hfree hl).1
  | some t =>
    obtain ⟨_, hcase⟩ := hheld t hl
    rcases hcase with ⟨_, hser⟩ | ⟨_, tr, n, hser, htr⟩
    · exact Or.inl hser
    · exact Or.inr ⟨tr, t, n, hser, htr⟩

/-- Claim C9 witness at the initial state. -/
theorem command_serialized_witness :
    SerTrace initState.trace ∨
      ∃ tr t n, SerTrace tr ∧
        initState.trace = tr ++ (t, Act.write) :: List.replicate n (t, Act.recv) :=
  command_serialized initState Reachable.init

/-- Claim C10: the full-output selector is membership of "any" in the
comma-split include list: if "any" occurs anywhere in the list the whole
decoded mapping is output unfiltered, and only when it is absent is the
output restricted to the listed keys, values unchanged. -/
theorem include_any_membership (inc : String) (full : ServingCellInfo) :
    ("any" ∈ pySplit inc ',' → filterResult inc full = full) ∧
    ("any" ∉ pySplit inc ',' →
      filterResult inc full = full.filter (fun kv => decide (kv.1 ∈ pySplit inc ','))) := by
  constructor
  · intro h
    simp only [filterResult]
    rw [if_pos h]
  · intro h
    simp only [filterResult]
    rw [if_neg h]

/-- Claim C10 witness: "rat,any" triggers full output by membership. -/
theorem include_any_membership_witness :
    "any" ∈ pySplit "rat,any" ',' ∧
    filterResult "rat,any" [("rat", .str "LTE"), ("band", .int 3)] =
      [("rat", .str "LTE"), ("band", .int 3)] :=
  ⟨by decide,
    (include_any_membership "rat,any" [("rat", .str "LTE"), ("band", .int 3)]).1 (by decide)⟩
